import Mathlib

/-!
Shallow embedding of the client-side SEO batch application
(`src/unnamed/part_000`, a JavaScript module).  The file on disk stores the
source with a Mac-Roman mojibake of its UTF-8 text; all Cyrillic literals
below are the recovered originals (the round trip is lossless).

Embedding conventions:
* JS strings are Lean `String`s; a `formData.get` result that can be `null`
  is either an `Option String` or a `String` where `""` models the falsy
  values (`null` / `""`), matching every use site, which only tests
  truthiness.
* `risk_score` values are embedded as `Rat`: the only operations performed
  on them are comparisons against the integer thresholds 30 and 50, on
  which IEEE doubles for decimal inputs and rationals agree.
* Network calls are an oracle `Nat → Except String String`: item `i`'s
  HTTP submission either yields a parsed payload (abstracted as a string)
  or throws with an error message.  DOM/log side effects are dropped;
  WebSocket lifecycle effects are recorded in an explicit event trace.
-/

/-- JS `a || b` on strings: `""` is the only falsy string. -/
def jsOr (a b : String) : String := if a = "" then b else a

/-! ### Language detector (`detectLanguage`, source lines 7–58) -/

/-- Case folding used by the `/i` regexes of `detectLanguage`: JS
canonicalization maps both sides of a comparison through the same case map;
we fold to lower case on the ranges the patterns mention (ASCII Latin,
Cyrillic `А`–`Я`, and the individual letters `Ё Є І Ї Ґ`). -/
def charLower (c : Char) : Char :=
  if decide ('A' ≤ c ∧ c ≤ 'Z') then Char.ofNat (c.toNat + 32)
  else if decide ('А' ≤ c ∧ c ≤ 'Я') then Char.ofNat (c.toNat + 32)
  else if c = 'Ё' then 'ё'
  else if c = 'Є' then 'є'
  else if c = 'І' then 'і'
  else if c = 'Ї' then 'ї'
  else if c = 'Ґ' then 'ґ'
  else c

/-- JS `String.prototype.toLowerCase`, restricted to the alphabets this
application compares (ASCII Latin and Cyrillic). -/
def lowerStr (s : String) : String := String.mk (s.data.map charLower)

/-- Membership in the class `[а-яєіїґ]` under `/i` (source line 14). -/
def ukCharClass (c : Char) : Bool :=
  let l := charLower c
  decide ('а' ≤ l ∧ l ≤ 'я') || l = 'є' || l = 'і' || l = 'ї' || l = 'ґ'

/-- `ukPatterns[0].test text` : `/[а-яєіїґ]/i`. -/
def ukCharTest (t : String) : Bool := t.data.any ukCharClass

/-- Membership in the class `[а-яё]` under `/i` (source line 20). -/
def ruCharClass (c : Char) : Bool :=
  let l := charLower c
  decide ('а' ≤ l ∧ l ≤ 'я') || l = 'ё'

/-- `ruPatterns[0].test text` : `/[а-яё]/i`. -/
def ruCharTest (t : String) : Bool := t.data.any ruCharClass

/-- ASCII Latin letter (either case). -/
def isLatinLetter (c : Char) : Bool :=
  decide (('a' ≤ c ∧ c ≤ 'z') ∨ ('A' ≤ c ∧ c ≤ 'Z'))

/-- The JS regex whitespace class: ASCII whitespace controls, space, NBSP, Ogham
space mark, the U+2000-U+200A spaces, the line and paragraph separators,
narrow no-break space, medium mathematical space, ideographic space, BOM. -/
def isJsSpace (c : Char) : Bool :=
  decide ('\x09' ≤ c ∧ c ≤ '\x0d') || c = ' ' || c = '\u00a0' || c = '\u1680' ||
  decide ('\u2000' ≤ c ∧ c ≤ '\u200a') || c = '\u2028' || c = '\u2029' ||
  c = '\u202f' || c = '\u205f' || c = '\u3000' || c = '\ufeff'

/-- `enPatterns[0].test text` (source line 26): the whole text is nonempty
and made of Latin letters and whitespace. -/
def enLatinOnly (t : String) : Bool :=
  !(t == "") && t.data.all (fun c => isLatinLetter c || isJsSpace c)

/-- JS regex `\w` (which `\b` is defined from): `[A-Za-z0-9_]`. -/
def jsWordChar (c : Char) : Bool :=
  decide (('a' ≤ c ∧ c ≤ 'z') ∨ ('A' ≤ c ∧ c ≤ 'Z') ∨ ('0' ≤ c ∧ c ≤ '9')) || c = '_'

/-- Whether position `i` of the char list holds a word character
(out of range counts as non-word, as at the ends of a JS string). -/
def wordAtIdx (l : List Char) (i : Nat) : Bool :=
  match l.get? i with
  | some c => jsWordChar c
  | none => false

/-- JS `\b` at position `p`: the word-ness of the characters on the two
sides of the position differs. -/
def boundaryAt (l : List Char) (p : Nat) : Bool :=
  (if p = 0 then false else wordAtIdx l (p - 1)) != wordAtIdx l p

/-- One alternative `w` of a `/\b(w1|…|wn)\b/i` regex matches at position
`p` (both boundaries present, folded characters equal). -/
def matchWordAt (l : List Char) (w : List Char) (p : Nat) : Bool :=
  ((l.drop p).take w.length).map charLower == w &&
  boundaryAt l p && boundaryAt l (p + w.length)

/-- `.test` of a `/\b(w1|…|wn)\b/i` regex: some alternative matches at some
position. -/
def testWords (ws : List String) (t : String) : Bool :=
  let l := t.data
  (List.range (l.length + 1)).any (fun p => ws.any (fun w => matchWordAt l w.data p))

/-- Alternatives of `ukPatterns[1]` (source line 15). -/
def ukWords : List String :=
  ["продаж", "купити", "послуги", "товар", "компанія", "бізнес", "вартість",
   "ціна", "замовити", "зв\x27язатися", "допомога", "інформація"]

/-- Alternatives of `ruPatterns[1]` (source line 21). -/
def ruWords : List String :=
  ["продажа", "купить", "услуги", "товар", "компания", "бизнес", "стоимость",
   "цена", "заказать", "связаться", "помощь", "информация"]

/-- Alternatives of `enPatterns[1]` (source line 27). -/
def enWords : List String :=
  ["buy", "sell", "service", "product", "company", "business", "price",
   "order", "contact", "help", "information"]

/-- `ukScore` accumulated by the two Ukrainian patterns. -/
def ukScore (t : String) : Nat :=
  (if ukCharTest t then 1 else 0) + (if testWords ukWords t then 1 else 0)

/-- `ruScore` accumulated by the two Russian patterns. -/
def ruScore (t : String) : Nat :=
  (if ruCharTest t then 1 else 0) + (if testWords ruWords t then 1 else 0)

/-- `enScore` accumulated by the two English patterns. -/
def enScore (t : String) : Nat :=
  (if enLatinOnly t then 1 else 0) + (if testWords enWords t then 1 else 0)

/-- `detectLanguage` (source lines 7–58).  The nullable JS parameter is an
`Option String`; `none` and `some ""` are the falsy inputs of the
`if (!text)` guard. -/
def detectLanguage (text : Option String) : String :=
  match text with
  | none => "uk"
  | some t =>
    if t = "" then "uk"
    else if 0 < enScore t ∧ ¬ukCharTest t ∧ ¬ruCharTest t then "en"
    else if ukScore t < ruScore t then "ru"
    else if 0 < ukScore t then "uk"
    else "uk"

/-! ### JS string primitives

Lean core `String.trim` / `String.splitOn` are defined by well-founded
recursion on byte positions and do not reduce in the kernel, so the JS
string primitives are embedded as structural recursion on the character
list.  `jsTrim` removes exactly the JS WhiteSpace/LineTerminator set (the
same set as the regex whitespace class). -/

/-- JS `String.prototype.trim`. -/
def jsTrim (s : String) : String :=
  String.mk (((s.data.dropWhile isJsSpace).reverse.dropWhile isJsSpace).reverse)

/-- Splitting a character list on a separator character; the group under
construction is the head of the returned list. -/
def jsSplitList (sep : Char) : List Char → List (List Char)
  | [] => [[]]
  | c :: rest =>
    match jsSplitList sep rest with
    | [] => [[]]
    | g :: gs => if c = sep then [] :: g :: gs else (c :: g) :: gs

/-- JS `String.prototype.split` with a single-character separator:
`"".split(sep)` is `[""]`, adjacent separators yield empty fields. -/
def jsSplit (sep : Char) (s : String) : List String :=
  (jsSplitList sep s.data).map String.mk

/-- Whether `p` is a prefix of `l`. -/
def leadMatch : List Char → List Char → Bool
  | [], _ => true
  | _ :: _, [] => false
  | p :: ps, c :: cs => p = c && leadMatch ps cs

/-- JS `String.prototype.startsWith`. -/
def jsStartsWith (s pat : String) : Bool := leadMatch pat.data s.data

/-! ### Batch item parser (`parseSimpleList` lines 603–654, `parseCSV`
lines 657–708) -/

/-- A parsed work item (the `pageData` object built by the parsers). -/
structure PageData where
  url : String
  topic : String
  keyword : String
  language : String
  target_audience : Option String
  user_query : String
deriving DecidableEq, Repr

/-- The default auto-mode instruction (source lines 645 and 699). -/
def autoQuery (url topic : String) : String :=
  "Згенеруй текст для " ++ url ++ " про " ++ topic

/-- The target-audience suffix appended when `targetAudience` is truthy. -/
def audienceSuffix (aud : String) : String :=
  " Цільова аудиторія: " ++ aud ++ "."

/-- The `chatgpt` content instruction (source lines 635 and 687). -/
def chatgptQuery (url topic brand biz aud : String) : String :=
  ("Створи контент для " ++ url ++ " з ключовим словом \"" ++ topic ++
   "\" для бренду " ++ brand ++ " (" ++ biz ++ ")") ++
  (if aud = "" then "" else audienceSuffix aud)

/-- The `meta_only` instruction (source lines 640 and 694). -/
def metaQuery (url topic brand biz aud : String) : String :=
  ("Створи тільки мета-теги (Title та Description) для " ++ url ++
   " з ключовим словом \"" ++ topic ++ "\" для бренду " ++ brand ++
   " (" ++ biz ++ "). Без генерації тексту контенту.") ++
  (if aud = "" then "" else audienceSuffix aud)

/-- Characters kept by the class complement replace on source line 617:
ASCII Latin letters, the Cyrillic ranges U+0430–U+044F and U+0410–U+042F,
and ASCII digits. -/
def topicKeepChar (c : Char) : Bool :=
  decide (('a' ≤ c ∧ c ≤ 'z') ∨ ('A' ≤ c ∧ c ≤ 'Z') ∨
          ('а' ≤ c ∧ c ≤ 'я') ∨ ('А' ≤ c ∧ c ≤ 'Я') ∨ ('0' ≤ c ∧ c ≤ '9'))

/-- Topic derived from a URL's last path segment (source lines 615–618):
split on `/`, take the last part, blank out the characters outside the kept
class, trim, and default to `"Page"` when the result is empty. -/
def deriveTopic (cleanUrl : String) : String :=
  let urlParts := jsSplit '/' cleanUrl
  let lastPart := urlParts.getLastD ""
  let t := jsTrim (String.mk (lastPart.data.map (fun c => if topicKeepChar c then c else ' ')))
  if t = "" then "Page" else t

/-- Work item built by one `parseSimpleList` iteration for the non-blank
URL at (post-filter) index `idx` (source lines 608–650). -/
def mkSimpleItem (idx : Nat) (cleanUrl : String) (keywords : List String)
    (generationMode brandName businessType targetAudience : String) : PageData :=
  let topic :=
    match keywords.get? idx with
    | some k => if k != "" && jsTrim k != "" then jsTrim k else deriveTopic cleanUrl
    | none => deriveTopic cleanUrl
  let userQuery :=
    if generationMode = "chatgpt" ∧ brandName ≠ "" ∧ businessType ≠ "" then
      chatgptQuery cleanUrl topic brandName businessType targetAudience
    else if generationMode = "meta_only" ∧ brandName ≠ "" ∧ businessType ≠ "" then
      metaQuery cleanUrl topic brandName businessType targetAudience
    else autoQuery cleanUrl topic
  { url := cleanUrl, topic := topic, keyword := topic,
    language := detectLanguage (some topic),
    target_audience := if targetAudience = "" then none else some targetAudience,
    user_query := userQuery }

/-- Non-blank lines of the URL list (source line 604). -/
def simpleUrls (urlList : String) : List String :=
  (jsSplit '\n' (jsTrim urlList)).filter (fun u => jsTrim u != "")

/-- Non-blank lines of the keywords list; `""` models a missing
`keywordsList` (source line 605). -/
def simpleKeywords (keywordsList : String) : List String :=
  if keywordsList = "" then []
  else (jsSplit '\n' (jsTrim keywordsList)).filter (fun k => jsTrim k != "")

/-- The `urls.forEach` loop of `parseSimpleList`: the forEach index advances
on every URL, an item is pushed only when the trimmed URL is truthy. -/
def parseSimpleAux (keywords : List String)
    (generationMode brandName businessType targetAudience : String) :
    Nat → List String → List PageData
  | _, [] => []
  | idx, url :: rest =>
    let cleanUrl := jsTrim url
    if cleanUrl = "" then
      parseSimpleAux keywords generationMode brandName businessType targetAudience
        (idx + 1) rest
    else
      mkSimpleItem idx cleanUrl keywords generationMode brandName businessType
          targetAudience ::
        parseSimpleAux keywords generationMode brandName businessType targetAudience
          (idx + 1) rest

/-- `parseSimpleList` (source lines 603–654). -/
def parseSimpleList (urlList keywordsList generationMode brandName businessType
    targetAudience : String) : List PageData :=
  parseSimpleAux (simpleKeywords keywordsList) generationMode brandName
    businessType targetAudience 0 (simpleUrls urlList)

/-- Work item built by `parseCSV` from the trimmed comma-separated fields of
one accepted line (source lines 668–703). -/
def mkCSVItem (parts : List String)
    (generationMode brandName businessType targetAudience : String) : PageData :=
  let url := parts.getD 0 ""
  let topic := parts.getD 1 ""
  let userQuery :=
    if generationMode = "chatgpt" ∧ 3 ≤ parts.length then
      chatgptQuery url topic (jsOr (jsOr (parts.getD 2 "") brandName) "Brand")
        (jsOr (jsOr (parts.getD 3 "") businessType) "general") targetAudience
    else if generationMode = "meta_only" ∧ 3 ≤ parts.length then
      metaQuery url topic (jsOr (jsOr (parts.getD 2 "") brandName) "Brand")
        (jsOr (jsOr (parts.getD 3 "") businessType) "general") targetAudience
    else autoQuery url topic
  { url := url, topic := topic, keyword := topic,
    language := detectLanguage (some topic),
    target_audience := if targetAudience = "" then none else some targetAudience,
    user_query := userQuery }

/-- `parseCSV` (source lines 657–708): per raw line, trim; skip falsy lines
and lines starting with the header token; split on commas into trimmed
fields; accept only lines with at least two fields. -/
def parseCSV (csvText generationMode brandName businessType
    targetAudience : String) : List PageData :=
  (jsSplit '\n' (jsTrim csvText)).filterMap (fun rawLine =>
    let line := jsTrim rawLine
    if line = "" then none
    else if jsStartsWith line "url," then none
    else
      let parts := (jsSplit ',' line).map jsTrim
      if 2 ≤ parts.length then
        some (mkCSVItem parts generationMode brandName businessType targetAudience)
      else none)

/-! ### Batch orchestrator (`processBatchRequest`, source lines 460–600)
and the single-request path (`processRequest`, source lines 291–328) -/

/-- One item's submission outcome, as pushed onto `batchResults`
(source lines 557–561 and 573–577). -/
structure BatchResult where
  url : String
  success : Bool
  result : Option String
  error : Option String
deriving DecidableEq, Repr

/-- WebSocket lifecycle and submission events of the batch loop, indexed by
the item's loop index. -/
inductive BEvent where
  | wsOpen (i : Nat)
  | httpAttempt (i : Nat)
  | wsClose (i : Nat)
deriving DecidableEq, Repr

/-- Whether the HTTP oracle reports success for a call. -/
def isOkB : Except String String → Bool
  | .ok _ => true
  | .error _ => false

/-- One iteration of the batch loop body (source lines 537–580): open a
WebSocket, issue the request; on success push a success record and close
the socket; on a thrown error push a failure record with
`error.message || 'Неизвестная ошибка'` — the catch path does not close
the socket. -/
def runBatchItem (i : Nat) (item : PageData) (r : Except String String) :
    BatchResult × List BEvent :=
  match r with
  | .ok payload =>
    ({ url := item.url, success := true, result := some payload, error := none },
     [.wsOpen i, .httpAttempt i, .wsClose i])
  | .error e =>
    ({ url := item.url, success := false, result := none,
       error := some (jsOr e "Неизвестная ошибка") },
     [.wsOpen i, .httpAttempt i])

/-- The `for` loop of `processBatchRequest` (source lines 529–588), started
at index `k`: outcomes are pushed in order, one per item, and the loop never
breaks or retries. -/
def runBatchLoop (http : Nat → Except String String) :
    Nat → List PageData → List BatchResult × List BEvent
  | _, [] => ([], [])
  | k, item :: rest =>
    ((runBatchItem k item (http k)).1 :: (runBatchLoop http (k + 1) rest).1,
     (runBatchItem k item (http k)).2 ++ (runBatchLoop http (k + 1) rest).2)

/-- The outcome list `batchResults` of a batch run over `items`. -/
def processBatchOutcomes (items : List PageData) (http : Nat → Except String String) :
    List BatchResult :=
  (runBatchLoop http 0 items).1

/-- The WebSocket/submission event trace of a batch run over `items`. -/
def processBatchEvents (items : List PageData) (http : Nat → Except String String) :
    List BEvent :=
  (runBatchLoop http 0 items).2

/-- Events of the single-request path `processRequest`. -/
inductive SEvent where
  | sOpen
  | sAttempt
  | sDisplay
  | sAlert
  | sClose
deriving DecidableEq, Repr

/-- `processRequest` (source lines 291–328): connect the WebSocket, issue
the request; display results on success, alert on error; the `finally`
block closes the WebSocket in both cases. -/
def processRequestEvents (r : Except String String) : List SEvent :=
  [SEvent.sOpen, SEvent.sAttempt] ++
  (match r with
   | .ok _ => [SEvent.sDisplay]
   | .error _ => [SEvent.sAlert]) ++
  [SEvent.sClose]

/-- The selected batch input mode (`batchInputType` radio group). -/
inductive BatchInputType where
  | simple
  | csv
  | manual
deriving DecidableEq, Repr

/-- The form fields read by `processBatchRequest`; `""` models a missing or
empty text field (both falsy in JS), `none` models no selected CSV file. -/
structure BatchForm where
  inputType : BatchInputType
  urlList : String
  keywordsList : String
  csvFile : Option String
  manualText : String
  generationMode : String
  brandName : String
  businessType : String
  targetAudience : String

/-- Pre-flight input collection of `processBatchRequest` (source lines
465–499): each missing required input raises the corresponding alert and
returns before the loop. -/
def parseBatchInput (f : BatchForm) : Except String (List PageData) :=
  match f.inputType with
  | .simple =>
    if f.urlList = "" then .error "Пожалуйста, введите список URL страниц"
    else .ok (parseSimpleList f.urlList f.keywordsList f.generationMode
      f.brandName f.businessType f.targetAudience)
  | .csv =>
    match f.csvFile with
    | none => .error "Пожалуйста, выберите CSV файл"
    | some csvText => .ok (parseCSV csvText f.generationMode f.brandName
        f.businessType f.targetAudience)
  | .manual =>
    if f.manualText = "" then
      .error "Пожалуйста, введите данные для пакетной обработки"
    else .ok (parseCSV f.manualText f.generationMode f.brandName
      f.businessType f.targetAudience)

/-- Pre-flight validation (source lines 460–504): missing input or an empty
parsed batch alerts and returns before the loop starts. -/
def processBatchPreflight (f : BatchForm) : Except String (List PageData) :=
  match parseBatchInput f with
  | .error m => .error m
  | .ok batchData =>
    if batchData.length = 0 then .error "Не найдено данных для обработки"
    else .ok batchData

/-- `processBatchRequest` (source lines 460–600): on validation failure the
alert message is surfaced and nothing runs; otherwise the loop produces the
outcome list and its event trace. -/
def processBatchRequest (f : BatchForm) (http : Nat → Except String String) :
    Except String (List BatchResult × List BEvent) :=
  match processBatchPreflight f with
  | .error m => .error m
  | .ok items => .ok (runBatchLoop http 0 items)

/-! ### Link-toxicity domain exports (source lines 812–870) -/

/-- One row of `currentLinkDetails`; only the fields the export filters
consult are embedded.  `risk_score` is a rational (see the header note). -/
structure LinkDetail where
  domain : Option String
  recommendation : Option String
  risk_score : Option Rat
deriving DecidableEq

/-- `(link.recommendation || '').toLowerCase()`. -/
def recLower (l : LinkDetail) : String := lowerStr (l.recommendation.getD "")

/-- Toxic filter (source lines 820–823): `disavow` recommendation, or a
present risk score of at least 50. -/
def toxicFilter (l : LinkDetail) : Bool :=
  recLower l == "disavow" ||
  (match l.risk_score with
   | some r => decide (50 ≤ r)
   | none => false)

/-- Suspicious filter (source lines 850–854): `attention` recommendation,
or (not `disavow` and a defaulted risk score in `[30, 50)`). -/
def suspiciousFilter (l : LinkDetail) : Bool :=
  let rcm := recLower l
  let rs : Rat := l.risk_score.getD 0
  rcm == "attention" || (rcm != "disavow" && decide (30 ≤ rs) && decide (rs < 50))

/-- JS `.filter((domain, index, self) => self.indexOf(domain) === index)`:
keep the first occurrence of each domain.  `seen` holds the domains already
emitted. -/
def jsDedupAux (seen : List String) : List String → List String
  | [] => []
  | x :: xs =>
    if List.elem x seen then jsDedupAux seen xs
    else x :: jsDedupAux (x :: seen) xs

/-- The domain-list pipeline shared by the export functions: filter the
links, project the domains, drop falsy domains, keep first occurrences. -/
def exportDomains (p : LinkDetail → Bool) (links : List LinkDetail) : List String :=
  jsDedupAux [] ((((links.filter p).filterMap LinkDetail.domain).filter (fun d => d != "")))

/-- `downloadToxicDomains` (source lines 812–839), as the list of exported
domains. -/
def downloadToxicDomains (links : List LinkDetail) : List String :=
  exportDomains toxicFilter links

/-- `downloadSuspiciousDomains` (source lines 842–870), as the list of
exported domains. -/
def downloadSuspiciousDomains (links : List LinkDetail) : List String :=
  exportDomains suspiciousFilter links

/-! ### Spec-side reading for the topic-derivation claim

The specification describes the kept characters as "Latin letter, Cyrillic
letter, or digit".  The following definitions follow that wording (with
"Cyrillic letter" the Unicode Cyrillic block U+0400–U+04FF) and exist only
to be compared against `deriveTopic`, which embeds the code. -/

/-- A character of the Unicode Cyrillic block. -/
def specCyrillicLetter (c : Char) : Bool :=
  decide (0x400 ≤ c.toNat ∧ c.toNat ≤ 0x4ff)

/-- The spec wording's kept class: Latin letter, Cyrillic letter, digit. -/
def specKeepChar (c : Char) : Bool :=
  isLatinLetter c || specCyrillicLetter c || decide ('0' ≤ c ∧ c ≤ '9')

/-- Topic derivation as the spec words it; same pipeline as `deriveTopic`
but with the spec's character class. -/
def specDeriveTopic (cleanUrl : String) : String :=
  let urlParts := jsSplit '/' cleanUrl
  let lastPart := urlParts.getLastD ""
  let t := jsTrim (String.mk (lastPart.data.map (fun c => if specKeepChar c then c else ' ')))
  if t = "" then "Page" else t

/-! ### Concrete inputs used by witnesses and counterexamples -/

/-- A work item whose submission the example oracles let succeed. -/
def exItemA : PageData :=
  { url := "https://a.example", topic := "alpha", keyword := "alpha",
    language := "uk", target_audience := none, user_query := "q1" }

/-- A work item whose submission the example oracles make fail. -/
def exItemB : PageData :=
  { url := "https://b.example", topic := "beta", keyword := "beta",
    language := "uk", target_audience := none, user_query := "q2" }

/-- A third work item, processed after the failing one. -/
def exItemC : PageData :=
  { url := "https://c.example", topic := "gamma", keyword := "gamma",
    language := "uk", target_audience := none, user_query := "q3" }

/-- Oracle: every call succeeds. -/
def exHttpOk : Nat → Except String String := fun _ => .ok "res"

/-- Oracle: every call throws with message `boom`. -/
def exHttpFail : Nat → Except String String := fun _ => .error "boom"

/-- Oracle: the call for item 1 throws, the others succeed. -/
def exHttpMixed : Nat → Except String String :=
  fun i => if i = 1 then .error "boom" else .ok "res"

/-- A batch form in simple-list mode with no URL list entered. -/
def emptySimpleForm : BatchForm :=
  { inputType := .simple, urlList := "", keywordsList := "", csvFile := none,
    manualText := "", generationMode := "auto", brandName := "",
    businessType := "", targetAudience := "" }

/-- A link with risk score 49.9 and no recommendation tag. -/
def link499 : LinkDetail :=
  { domain := some "susp.example", recommendation := none,
    risk_score := some (mkRat 499 10) }

/-- A disavow-tagged link with a low risk score. -/
def linkDis : LinkDetail :=
  { domain := some "toxic.example", recommendation := some "disavow",
    risk_score := some 5 }

/-- A link with risk score 29.9 and no tag. -/
def link299 : LinkDetail :=
  { domain := some "low.example", recommendation := none,
    risk_score := some (mkRat 299 10) }

/-- A link with risk score 40 and no tag. -/
def link40 : LinkDetail :=
  { domain := some "mid.example", recommendation := none,
    risk_score := some 40 }

/-- A link with risk score exactly 50 and no tag. -/
def link50 : LinkDetail :=
  { domain := some "hot.example", recommendation := none,
    risk_score := some 50 }

/-- A disavow-tagged link (mixed case) with a mid-range risk score. -/
def linkDis40 : LinkDetail :=
  { domain := some "dd.example", recommendation := some "Disavow",
    risk_score := some 40 }

/-- The Bool filter on trimmed CSV lines that `parseCSV` accepts: truthy,
not the header, and at least two comma-separated fields. -/
def csvLineAccept (l : String) : Bool :=
  !(l == "") && !(jsStartsWith l "url,") && decide (2 ≤ (jsSplit ',' l).length)

/-! ## Theorems -/

/-- C8: for every empty or undefined input text, `detectLanguage` returns
`"uk"` (the `if (!text)` guard covers `undefined`, `null` and `""`). -/
theorem detectLanguage_empty_default :
    detectLanguage none = "uk" ∧ detectLanguage (some "") = "uk" := by
  constructor <;> rfl

/-- C6: for every non-empty text, `detectLanguage` returns `"en"` when some
English pattern matched and neither Cyrillic character-class pattern
matches; otherwise `"ru"` when the Russian score strictly exceeds the
Ukrainian score; otherwise `"uk"` (both remaining branches). -/
theorem detectLanguage_decision (t : String) (h : t ≠ "") :
    detectLanguage (some t) =
      if 0 < enScore t ∧ ¬ukCharTest t ∧ ¬ruCharTest t then "en"
      else if ukScore t < ruScore t then "ru"
      else "uk" := by
  have e : detectLanguage (some t) =
      (if t = "" then "uk"
       else if 0 < enScore t ∧ ¬ukCharTest t ∧ ¬ruCharTest t then "en"
       else if ukScore t < ruScore t then "ru"
       else if 0 < ukScore t then "uk"
       else "uk") := rfl
  rw [e, if_neg h]
  split_ifs <;> rfl

/-- Witness for `detectLanguage_decision` at the input `"buy now"`. -/
theorem detectLanguage_decision_witness :
    ("buy now" : String) ≠ "" ∧ detectLanguage (some "buy now") = "en" :=
  ⟨by decide, (detectLanguage_decision "buy now" (by decide)).trans (by decide)⟩

/-- C3 counterexample: `і` (U+0456) is a Cyrillic letter, but the code's
class keeps only `а-яА-Я`, so the URL `https://x.com/сіль` yields the topic
`"с ль"` while the claim's wording predicts `"сіль"`. -/
theorem derive_topic_cyrillic_counterexample :
    (parseSimpleList "https://x.com/сіль" "" "" "" "" "").map PageData.topic =
      ["с ль"] ∧
    specDeriveTopic "https://x.com/сіль" = "сіль" ∧
    ("с ль" : String) ≠ "сіль" := by
  refine ⟨by decide, by decide, by decide⟩

/-- C2 counterexample: a link with risk score 49.9 and no recommendation
tag is exported as suspicious (and not as toxic), while the claim says it
is excluded from both exports. -/
theorem risk499_in_suspicious_export :
    link499.recommendation = none ∧
    link499.risk_score = some (mkRat 499 10) ∧
    "susp.example" ∈ downloadSuspiciousDomains [link499] ∧
    "susp.example" ∉ downloadToxicDomains [link499] := by
  refine ⟨rfl, rfl, by decide, by decide⟩

/-- The outcome list of the batch loop has one entry per item. -/
theorem runBatchLoop_length (http : Nat → Except String String) :
    ∀ (items : List PageData) (k : Nat),
      (runBatchLoop http k items).1.length = items.length := by
  intro items
  induction items with
  | nil => intro k; rfl
  | cons hd tl ih => intro k; simp [runBatchLoop, ih (k + 1)]

/-- The outcome at index `i` of the batch loop started at `k` is exactly the
outcome of item `i` under the oracle's answer for call `k + i`. -/
theorem runBatchLoop_get (http : Nat → Except String String) :
    ∀ (items : List PageData) (k i : Nat) (item : PageData),
      items.get? i = some item →
      (runBatchLoop http k items).1.get? i =
        some (runBatchItem (k + i) item (http (k + i))).1 := by
  intro items
  induction items with
  | nil => intro k i item h; simp at h
  | cons hd tl ih =>
    intro k i item h
    cases i with
    | zero =>
      simp at h
      subst h
      rfl
    | succ i =>
      simp only [List.get?_cons_succ] at h
      have hh := ih (k + 1) i item h
      have e : k + 1 + i = k + (i + 1) := by omega
      rw [e] at hh
      simpa [runBatchLoop] using hh

/-- Every item of the batch gets its HTTP submission attempted. -/
theorem runBatchLoop_attempt (http : Nat → Except String String) :
    ∀ (items : List PageData) (k i : Nat) (item : PageData),
      items.get? i = some item →
      BEvent.httpAttempt (k + i) ∈ (runBatchLoop http k items).2 := by
  intro items
  induction items with
  | nil => intro k i item h; simp at h
  | cons hd tl ih =>
    intro k i item h
    cases i with
    | zero =>
      cases hr : http k <;>
        simp [runBatchLoop, runBatchItem, hr]
    | succ i =>
      simp only [List.get?_cons_succ] at h
      have hh := ih (k + 1) i item h
      have e : k + 1 + i = k + (i + 1) := by omega
      rw [e] at hh
      simp only [runBatchLoop, List.mem_append]
      right
      exact hh

/-- A `wsClose` event for index `i` appears only when the oracle reported
success for call `i`. -/
theorem runBatchLoop_close_ok (http : Nat → Except String String) :
    ∀ (items : List PageData) (k i : Nat),
      BEvent.wsClose i ∈ (runBatchLoop http k items).2 → isOkB (http i) = true := by
  intro items
  induction items with
  | nil => intro k i h; simp [runBatchLoop] at h
  | cons hd tl ih =>
    intro k i h
    simp only [runBatchLoop, List.mem_append] at h
    rcases h with h | h
    · cases hr : http k with
      | ok payload =>
        rw [hr] at h
        simp [runBatchItem] at h
        rw [h, hr]
        rfl
      | error e =>
        rw [hr] at h
        simp [runBatchItem] at h
    · exact ih (k + 1) i h

/-- When the oracle reports success for item `i`, the loop closes item `i`'s
WebSocket. -/
theorem runBatchLoop_close_of_ok (http : Nat → Except String String) :
    ∀ (items : List PageData) (k i : Nat) (item : PageData),
      items.get? i = some item → isOkB (http (k + i)) = true →
      BEvent.wsClose (k + i) ∈ (runBatchLoop http k items).2 := by
  intro items
  induction items with
  | nil => intro k i item h _; simp at h
  | cons hd tl ih =>
    intro k i item h hok
    cases i with
    | zero =>
      cases hr : http k with
      | ok payload => simp [runBatchLoop, runBatchItem, hr]
      | error e => rw [Nat.add_zero, hr] at hok; simp [isOkB] at hok
    | succ i =>
      simp only [List.get?_cons_succ] at h
      have e : k + 1 + i = k + (i + 1) := by omega
      have hh := ih (k + 1) i item h (by rw [e]; exact hok)
      rw [e] at hh
      simp only [runBatchLoop, List.mem_append]
      right
      exact hh

/-- C1: a batch of `N` parsed items yields exactly `N` outcomes, the
outcome at index `i` is determined by item `i` and its own HTTP result
alone (appended in item order), every item's submission is attempted, and
a failure on item `i` is recorded as `success = false` with the error
message — it neither retries nor stops the loop. -/
theorem processBatch_isolation (items : List PageData)
    (http : Nat → Except String String) :
    (processBatchOutcomes items http).length = items.length ∧
    ∀ i item, items.get? i = some item →
      (processBatchOutcomes items http).get? i =
        some (runBatchItem i item (http i)).1 ∧
      BEvent.httpAttempt i ∈ processBatchEvents items http ∧
      ∀ e, http i = .error e →
        (runBatchItem i item (http i)).1.success = false ∧
        (runBatchItem i item (http i)).1.error =
          some (jsOr e "Неизвестная ошибка") := by
  refine ⟨runBatchLoop_length http items 0, fun i item h => ⟨?_, ?_, ?_⟩⟩
  · simpa using runBatchLoop_get http items 0 i item h
  · simpa using runBatchLoop_attempt http items 0 i item h
  · intro e he
    simp [runBatchItem, he]

/-- Witness for `processBatch_isolation`: three items, the middle call
fails; the outcome list still has length 3, outcome 1 records the failure,
and item 2 is attempted. -/
theorem processBatch_isolation_witness :
    (processBatchOutcomes [exItemA, exItemB, exItemC] exHttpMixed).length = 3 ∧
    (processBatchOutcomes [exItemA, exItemB, exItemC] exHttpMixed).get? 1 =
      some { url := "https://b.example", success := false, result := none,
             error := some "boom" } ∧
    BEvent.httpAttempt 2 ∈ processBatchEvents [exItemA, exItemB, exItemC] exHttpMixed := by
  have h := processBatch_isolation [exItemA, exItemB, exItemC] exHttpMixed
  refine ⟨h.1.trans (by decide), ?_, (h.2 2 exItemC (by decide)).2.1⟩
  have h1 := (h.2 1 exItemB (by decide)).1
  rw [h1]
  decide

/-- C4 counterexample: for a batch item whose submission fails, the loop
records the failure but emits no `wsClose` event — the WebSocket opened for
that item is never explicitly closed. -/
theorem batch_failure_leaves_channel_open :
    (processBatchOutcomes [exItemB] exHttpFail).get? 0 =
      some { url := "https://b.example", success := false, result := none,
             error := some "boom" } ∧
    processBatchEvents [exItemB] exHttpFail =
      [BEvent.wsOpen 0, BEvent.httpAttempt 0] ∧
    BEvent.wsClose 0 ∉ processBatchEvents [exItemB] exHttpFail := by
  refine ⟨by decide, by decide, by decide⟩

/-- C4 amended: in a batch run the Progress Channel of item `i` is closed
exactly when item `i`'s submission succeeds; on failure the catch path
leaves it open.  The single-request path closes its channel in a `finally`
block in both cases. -/
theorem processBatch_channel_close (items : List PageData)
    (http : Nat → Except String String) :
    (∀ i item, items.get? i = some item →
      (isOkB (http i) = true → BEvent.wsClose i ∈ processBatchEvents items http) ∧
      (isOkB (http i) = false → BEvent.wsClose i ∉ processBatchEvents items http)) ∧
    ∀ r : Except String String, SEvent.sClose ∈ processRequestEvents r := by
  refine ⟨fun i item h => ⟨fun hok => ?_, fun hbad hmem => ?_⟩, fun r => ?_⟩
  · simpa using runBatchLoop_close_of_ok http items 0 i item h (by simpa using hok)
  · have hc := runBatchLoop_close_ok http items 0 i hmem
    rw [hc] at hbad
    exact Bool.noConfusion hbad
  · cases r <;> simp [processRequestEvents]

/-- Witness for `processBatch_channel_close`: a successful item's channel
is closed, a failed item's channel is not, and the single-request path
closes the channel even on failure. -/
theorem processBatch_channel_close_witness :
    BEvent.wsClose 0 ∈ processBatchEvents [exItemA] exHttpOk ∧
    BEvent.wsClose 0 ∉ processBatchEvents [exItemC] exHttpFail ∧
    SEvent.sClose ∈ processRequestEvents (Except.error "boom") := by
  have hok := processBatch_channel_close [exItemA] exHttpOk
  have hfail := processBatch_channel_close [exItemC] exHttpFail
  exact ⟨(hok.1 0 exItemA (by decide)).1 (by decide),
         (hfail.1 0 exItemC (by decide)).2 (by decide),
         hok.2 (Except.error "boom")⟩

/-- C7: when a required batch input is missing (no URL list, no CSV file,
no manual text) or the parsed item list is empty, `processBatchRequest`
surfaces the alert and returns before the loop: no outcome and no
WebSocket event is produced. -/
theorem processBatch_preflight_guard (f : BatchForm)
    (http : Nat → Except String String)
    (h : (f.inputType = BatchInputType.simple ∧ f.urlList = "") ∨
         (f.inputType = BatchInputType.csv ∧ f.csvFile = none) ∨
         (f.inputType = BatchInputType.manual ∧ f.manualText = "") ∨
         parseBatchInput f = Except.ok []) :
    ∃ msg, processBatchRequest f http = Except.error msg := by
  rcases h with ⟨h1, h2⟩ | ⟨h1, h2⟩ | ⟨h1, h2⟩ | h1
  · simp [processBatchRequest, processBatchPreflight, parseBatchInput, h1, h2]
  · simp [processBatchRequest, processBatchPreflight, parseBatchInput, h1, h2]
  · simp [processBatchRequest, processBatchPreflight, parseBatchInput, h1, h2]
  · simp [processBatchRequest, processBatchPreflight, h1]

/-- Witness for `processBatch_preflight_guard`: simple-list mode with no
URL list entered alerts and produces nothing. -/
theorem processBatch_preflight_guard_witness :
    (∃ msg, processBatchRequest emptySimpleForm exHttpOk = Except.error msg) ∧
    processBatchRequest emptySimpleForm exHttpOk =
      Except.error "Пожалуйста, введите список URL страниц" :=
  ⟨processBatch_preflight_guard emptySimpleForm exHttpOk (Or.inl ⟨rfl, rfl⟩), rfl⟩

/-- The trim-default pipeline tail of the topic derivations never returns
the empty string. -/
theorem topicDefault_ne (t : String) : (if t = "" then "Page" else t) ≠ "" := by
  split_ifs with h
  · decide
  · exact h

/-- `deriveTopic` always yields a non-empty topic. -/
theorem deriveTopic_ne (u : String) : deriveTopic u ≠ "" := topicDefault_ne _

/-- Every work item `parseSimpleList` builds has a non-empty topic. -/
theorem mkSimpleItem_topic_ne (idx : Nat) (cleanUrl : String) (ks : List String)
    (generationMode brandName businessType targetAudience : String) :
    (mkSimpleItem idx cleanUrl ks generationMode brandName businessType
      targetAudience).topic ≠ "" := by
  show (match ks.get? idx with
        | some k => if k != "" && jsTrim k != "" then jsTrim k else deriveTopic cleanUrl
        | none => deriveTopic cleanUrl) ≠ ""
  cases hk : ks.get? idx with
  | none => exact deriveTopic_ne cleanUrl
  | some k =>
    show (if (k != "" && jsTrim k != "") = true then jsTrim k
          else deriveTopic cleanUrl) ≠ ""
    split_ifs with hcond
    · have h2 := (Bool.and_eq_true _ _).mp hcond
      simpa [bne_iff_ne] using h2.2
    · exact deriveTopic_ne cleanUrl

/-- The `forEach` loop keeps one item per URL when every URL in the list is
non-blank after trimming. -/
theorem parseSimpleAux_length (ks : List String)
    (generationMode brandName businessType targetAudience : String) :
    ∀ (urls : List String) (k : Nat), (∀ u ∈ urls, jsTrim u ≠ "") →
      (parseSimpleAux ks generationMode brandName businessType targetAudience
        k urls).length = urls.length := by
  intro urls
  induction urls with
  | nil => intro k _; rfl
  | cons hd tl ih =>
    intro k hall
    have hhd : jsTrim hd ≠ "" := hall hd (List.mem_cons_self hd tl)
    simp only [parseSimpleAux]
    rw [if_neg hhd]
    simp [ih (k + 1) (fun u hu => hall u (List.mem_cons_of_mem hd hu))]

/-- The item produced for the URL at (post-filter) index `i` by the loop
started at index `k`. -/
theorem parseSimpleAux_get (ks : List String)
    (generationMode brandName businessType targetAudience : String) :
    ∀ (urls : List String) (k i : Nat) (url : String),
      (∀ u ∈ urls, jsTrim u ≠ "") → urls.get? i = some url →
      (parseSimpleAux ks generationMode brandName businessType targetAudience
        k urls).get? i =
        some (mkSimpleItem (k + i) (jsTrim url) ks generationMode brandName
          businessType targetAudience) := by
  intro urls
  induction urls with
  | nil => intro k i url _ h; simp at h
  | cons hd tl ih =>
    intro k i url hall h
    have hhd : jsTrim hd ≠ "" := hall hd (List.mem_cons_self hd tl)
    have hall2 : ∀ u ∈ tl, jsTrim u ≠ "" := fun u hu => hall u (List.mem_cons_of_mem hd hu)
    cases i with
    | zero =>
      simp at h
      subst h
      simp only [parseSimpleAux]
      rw [if_neg hhd]
      rfl
    | succ i =>
      simp only [List.get?_cons_succ] at h
      have hh := ih (k + 1) i url hall2 h
      have e : k + 1 + i = k + (i + 1) := by omega
      rw [e] at hh
      simp only [parseSimpleAux]
      rw [if_neg hhd]
      simpa using hh

/-- C3 amended: for `N` non-blank URL lines, `parseSimpleList` returns
exactly `N` items in line order; item `i`'s topic is the non-blank keyword
at (post-filter) index `i` when one exists, otherwise the topic derived
from the URL's last path segment by blanking every character outside
`a-zA-Zа-яА-Я0-9` (a class that omits `ё`, `Ё` and the Ukrainian letters
`і ї є ґ`), trimmed, with the non-empty fallback `"Page"`; every topic is
non-empty. -/
theorem parseSimpleList_spec (urlList keywordsList generationMode brandName
    businessType targetAudience : String) :
    (parseSimpleList urlList keywordsList generationMode brandName businessType
      targetAudience).length = (simpleUrls urlList).length ∧
    ∀ i url, (simpleUrls urlList).get? i = some url →
      (parseSimpleList urlList keywordsList generationMode brandName
        businessType targetAudience).get? i =
        some (mkSimpleItem i (jsTrim url) (simpleKeywords keywordsList)
          generationMode brandName businessType targetAudience) ∧
      (mkSimpleItem i (jsTrim url) (simpleKeywords keywordsList) generationMode
        brandName businessType targetAudience).topic =
        (match (simpleKeywords keywordsList).get? i with
         | some k => if k != "" && jsTrim k != "" then jsTrim k
                     else deriveTopic (jsTrim url)
         | none => deriveTopic (jsTrim url)) ∧
      (mkSimpleItem i (jsTrim url) (simpleKeywords keywordsList) generationMode
        brandName businessType targetAudience).topic ≠ "" := by
  have hall : ∀ u ∈ simpleUrls urlList, jsTrim u ≠ "" := by
    intro u hu
    have := (List.mem_filter.mp hu).2
    simpa [bne_iff_ne] using this
  refine ⟨parseSimpleAux_length _ _ _ _ _ _ 0 hall, fun i url h => ⟨?_, rfl, ?_⟩⟩
  · simpa using parseSimpleAux_get _ _ _ _ _ _ 0 i url hall h
  · exact mkSimpleItem_topic_ne _ _ _ _ _ _ _

/-- Witness for `parseSimpleList_spec` at the spec's own example input. -/
theorem parseSimpleList_spec_witness :
    (parseSimpleList "https://x.com/blue-widgets\nhttps://x.com/q" "" "" "" "" "").length = 2 ∧
    (parseSimpleList "https://x.com/blue-widgets\nhttps://x.com/q" "" "" "" "" "").get? 0 =
      some (mkSimpleItem 0 "https://x.com/blue-widgets" [] "" "" "" "") ∧
    (mkSimpleItem 0 "https://x.com/blue-widgets" [] "" "" "" "").topic = "blue widgets" := by
  have h := parseSimpleList_spec "https://x.com/blue-widgets\nhttps://x.com/q" "" "" "" "" ""
  refine ⟨h.1.trans (by decide), ?_, by decide⟩
  have h2 := (h.2 0 "https://x.com/blue-widgets" (by decide)).1
  exact h2

/-- C5: `parseCSV` keeps, in original order, exactly the trimmed lines that
are non-blank, do not start with the header token `url,`, and split on
commas into at least two fields; it builds one work item per kept line. -/
theorem parseCSV_line_structure (csvText generationMode brandName businessType
    targetAudience : String) :
    parseCSV csvText generationMode brandName businessType targetAudience =
      (((jsSplit '\n' (jsTrim csvText)).map jsTrim).filter csvLineAccept).map
        (fun l => mkCSVItem ((jsSplit ',' l).map jsTrim) generationMode
          brandName businessType targetAudience) := by
  unfold parseCSV
  generalize jsSplit '\n' (jsTrim csvText) = ls
  induction ls with
  | nil => rfl
  | cons hd tl ih =>
    simp only [List.filterMap_cons, List.map_cons, List.filter_cons]
    by_cases h1 : jsTrim hd = ""
    · simpa [h1, csvLineAccept] using ih
    · by_cases h2 : jsStartsWith (jsTrim hd) "url," = true
      · simpa [h1, h2, csvLineAccept] using ih
      · by_cases h3 : 2 ≤ (jsSplit ',' (jsTrim hd)).length
        · simpa [h1, h2, h3, csvLineAccept, List.length_map] using ih
        · simpa [h1, h2, h3, csvLineAccept, List.length_map] using ih

/-- Unfolding of the instruction string chosen by `mkCSVItem`. -/
theorem mkCSVItem_user_query (parts : List String)
    (generationMode brandName businessType targetAudience : String) :
    (mkCSVItem parts generationMode brandName businessType
      targetAudience).user_query =
      (if generationMode = "chatgpt" ∧ 3 ≤ parts.length then
        chatgptQuery (parts.getD 0 "") (parts.getD 1 "")
          (jsOr (jsOr (parts.getD 2 "") brandName) "Brand")
          (jsOr (jsOr (parts.getD 3 "") businessType) "general") targetAudience
      else if generationMode = "meta_only" ∧ 3 ≤ parts.length then
        metaQuery (parts.getD 0 "") (parts.getD 1 "")
          (jsOr (jsOr (parts.getD 2 "") brandName) "Brand")
          (jsOr (jsOr (parts.getD 3 "") businessType) "general") targetAudience
      else autoQuery (parts.getD 0 "") (parts.getD 1 "")) := rfl

/-- C9: a CSV/manual line accepted with exactly two fields always gets the
default auto-mode instruction embedding only url and topic — for every
generation mode and any form-level brand/business values; the brand- and
business-specific phrasings appear only for lines with at least three
fields, where an empty row field falls back to the form-level value and
finally to the literals `"Brand"` / `"general"` (the `jsOr` chains). -/
theorem parseCSV_instruction_modes :
    (∀ (parts : List String)
       (generationMode brandName businessType targetAudience : String),
       parts.length = 2 →
       (mkCSVItem parts generationMode brandName businessType
         targetAudience).user_query = autoQuery (parts.getD 0 "") (parts.getD 1 "")) ∧
    (∀ (parts : List String) (brandName businessType targetAudience : String),
       3 ≤ parts.length →
       (mkCSVItem parts "chatgpt" brandName businessType
         targetAudience).user_query =
         chatgptQuery (parts.getD 0 "") (parts.getD 1 "")
           (jsOr (jsOr (parts.getD 2 "") brandName) "Brand")
           (jsOr (jsOr (parts.getD 3 "") businessType) "general") targetAudience) ∧
    (∀ (parts : List String) (brandName businessType targetAudience : String),
       3 ≤ parts.length →
       (mkCSVItem parts "meta_only" brandName businessType
         targetAudience).user_query =
         metaQuery (parts.getD 0 "") (parts.getD 1 "")
           (jsOr (jsOr (parts.getD 2 "") brandName) "Brand")
           (jsOr (jsOr (parts.getD 3 "") businessType) "general") targetAudience) ∧
    (∀ a b : String, jsOr (jsOr "" a) b = if a = "" then b else a) := by
  refine ⟨?_, ?_, ?_, ?_⟩
  · intro parts generationMode brandName businessType targetAudience hlen
    have hc1 : ¬(generationMode = "chatgpt" ∧ 3 ≤ parts.length) :=
      fun hc => absurd hc.2 (by omega)
    have hc2 : ¬(generationMode = "meta_only" ∧ 3 ≤ parts.length) :=
      fun hc => absurd hc.2 (by omega)
    rw [mkCSVItem_user_query, if_neg hc1, if_neg hc2]
  · intro parts brandName businessType targetAudience hlen
    rw [mkCSVItem_user_query, if_pos ⟨rfl, hlen⟩]
  · intro parts brandName businessType targetAudience hlen
    have hc1 : ¬(("meta_only" : String) = "chatgpt" ∧ 3 ≤ parts.length) :=
      fun hc => absurd hc.1 (by decide)
    rw [mkCSVItem_user_query, if_neg hc1, if_pos ⟨rfl, hlen⟩]
  · intro a b
    by_cases h : a = "" <;> simp [jsOr, h]

/-- Witness for `parseCSV_instruction_modes`: a two-field row under
`chatgpt` mode with form-level brand and business type still receives the
auto instruction; a four-field row with an empty brand field falls back to
the form-level brand. -/
theorem parseCSV_instruction_modes_witness :
    (mkCSVItem ["https://a.com", "Shoes"] "chatgpt" "BrandX" "retail" "").user_query =
      "Згенеруй текст для https://a.com про Shoes" ∧
    (mkCSVItem ["https://a.com", "Shoes", "", "retail"] "chatgpt" "BrandY" "x" "").user_query =
      chatgptQuery "https://a.com" "Shoes" "BrandY" "retail" "" := by
  have h := parseCSV_instruction_modes
  refine ⟨(h.1 ["https://a.com", "Shoes"] "chatgpt" "BrandX" "retail" "" rfl).trans
    (by decide), ?_⟩
  have h2 := h.2.1 ["https://a.com", "Shoes", "", "retail"] "BrandY" "x" "" (by decide)
  rw [h2]
  decide

/-- Every element surviving the first-occurrence dedup came from the input
list. -/
theorem jsDedupAux_sub :
    ∀ (seen xs : List String) (d : String), d ∈ jsDedupAux seen xs → d ∈ xs := by
  intro seen xs
  induction xs generalizing seen with
  | nil => intro d h; simp [jsDedupAux] at h
  | cons x xs ih =>
    intro d h
    simp only [jsDedupAux] at h
    by_cases he : List.elem x seen = true
    · rw [if_pos he] at h
      exact List.mem_cons_of_mem x (ih seen d h)
    · rw [if_neg he] at h
      rcases List.mem_cons.mp h with rfl | hmem
      · exact List.mem_cons_self _ _
      · exact List.mem_cons_of_mem x (ih (x :: seen) d hmem)

/-- An input element not yet emitted survives the first-occurrence dedup. -/
theorem mem_jsDedupAux :
    ∀ (seen xs : List String) (d : String), d ∈ xs → d ∉ seen →
      d ∈ jsDedupAux seen xs := by
  intro seen xs
  induction xs generalizing seen with
  | nil => intro d h _; simp at h
  | cons x xs ih =>
    intro d h hns
    simp only [jsDedupAux]
    by_cases he : List.elem x seen = true
    · rw [if_pos he]
      rcases List.mem_cons.mp h with rfl | hmem
      · exact absurd (List.elem_iff.mp he) hns
      · exact ih seen d hmem hns
    · rw [if_neg he]
      rcases List.mem_cons.mp h with rfl | hmem
      · exact List.mem_cons_self _ _
      · by_cases hdx : d = x
        · subst hdx; exact List.mem_cons_self _ _
        · refine List.mem_cons_of_mem x (ih (x :: seen) d hmem ?_)
          intro hc
          exact (List.mem_cons.mp hc).elim hdx hns

/-- Introduction rule for membership in an export list. -/
theorem mem_exportDomains_intro (p : LinkDetail → Bool) (links : List LinkDetail)
    (l : LinkDetail) (d : String) (hl : l ∈ links) (hp : p l = true)
    (hd : l.domain = some d) (hne : d ≠ "") : d ∈ exportDomains p links := by
  refine mem_jsDedupAux [] _ d ?_ (by simp)
  refine List.mem_filter.mpr ⟨?_, ?_⟩
  · exact List.mem_filterMap.mpr ⟨l, List.mem_filter.mpr ⟨hl, hp⟩, hd⟩
  · simpa [bne_iff_ne] using hne

/-- Elimination rule for membership in an export list. -/
theorem mem_exportDomains_elim (p : LinkDetail → Bool) (links : List LinkDetail)
    (d : String) (h : d ∈ exportDomains p links) :
    ∃ l, l ∈ links ∧ p l = true ∧ l.domain = some d ∧ d ≠ "" := by
  have h1 := jsDedupAux_sub _ _ _ h
  have h2 := List.mem_filter.mp h1
  obtain ⟨l, hl, hd⟩ := List.mem_filterMap.mp h2.1
  have h3 := List.mem_filter.mp hl
  exact ⟨l, h3.1, h3.2, hd, by simpa [bne_iff_ne] using h2.2⟩

/-- A disavow recommendation passes the toxic filter. -/
theorem toxicFilter_disavow (l : LinkDetail) (h : recLower l = "disavow") :
    toxicFilter l = true := by
  simp [toxicFilter, h]

/-- A disavow recommendation fails the suspicious filter. -/
theorem suspiciousFilter_disavow (l : LinkDetail) (h : recLower l = "disavow") :
    suspiciousFilter l = false := by
  simp [suspiciousFilter, h]

/-- A disavow-tagged link with a truthy domain puts its domain into the
toxic export. -/
theorem disavow_mem_toxic (links : List LinkDetail) (l : LinkDetail) (d : String)
    (hl : l ∈ links) (hrec : recLower l = "disavow") (hd : l.domain = some d)
    (hne : d ≠ "") : d ∈ downloadToxicDomains links :=
  mem_exportDomains_intro toxicFilter links l d hl (toxicFilter_disavow l hrec)
    hd hne

/-- C2 amended: a disavow-tagged domain is always in the toxic export
regardless of risk score; a score below 30 with no tag passes neither
filter; a present score in `[30, 50)` — including 49.9 — without a disavow
tag passes the suspicious filter and not the toxic one; a score of at least
50 passes the toxic filter. -/
theorem risk_classification (links : List LinkDetail) :
    (∀ l d, l ∈ links → recLower l = "disavow" → l.domain = some d → d ≠ "" →
      d ∈ downloadToxicDomains links) ∧
    (∀ (l : LinkDetail) (r : Rat), l.risk_score = some r → r < 30 →
      recLower l ≠ "disavow" → recLower l ≠ "attention" →
      toxicFilter l = false ∧ suspiciousFilter l = false) ∧
    (∀ (l : LinkDetail) (r : Rat), l.risk_score = some r → 30 ≤ r → r < 50 →
      recLower l ≠ "disavow" →
      suspiciousFilter l = true ∧ toxicFilter l = false) ∧
    (∀ (l : LinkDetail) (r : Rat), l.risk_score = some r → 50 ≤ r →
      toxicFilter l = true) := by
  refine ⟨fun l d hl h1 h2 h3 => disavow_mem_toxic links l d hl h1 h2 h3,
    ?_, ?_, ?_⟩
  · intro l r hr h30 hdis hatt
    have h50 : ¬(50 ≤ r) := by linarith
    constructor
    · simp [toxicFilter, hr, beq_eq_false_iff_ne.mpr hdis, h50]
    · simp [suspiciousFilter, hr, beq_eq_false_iff_ne.mpr hatt,
        (by linarith : ¬(30 ≤ r))]
  · intro l r hr h30 h50 hdis
    constructor
    · simp [suspiciousFilter, hr, bne_iff_ne, hdis, h30, h50]
    · simp [toxicFilter, hr, beq_eq_false_iff_ne.mpr hdis,
        (by linarith : ¬(50 ≤ r))]
  · intro l r hr h50
    simp [toxicFilter, hr, h50]

/-- Witness for `risk_classification` at concrete links: a disavow link
with score 5 lands in the toxic export; a 29.9-score untagged link passes
neither filter; a 40-score untagged link is suspicious only; a 50-score
link is toxic. -/
theorem risk_classification_witness :
    "toxic.example" ∈ downloadToxicDomains [linkDis] ∧
    (toxicFilter link299 = false ∧ suspiciousFilter link299 = false) ∧
    (suspiciousFilter link40 = true ∧ toxicFilter link40 = false) ∧
    toxicFilter link50 = true := by
  have h := risk_classification [linkDis]
  have h2 := risk_classification []
  exact ⟨h.1 linkDis "toxic.example" (by decide) (by decide) (by decide) (by decide),
    h2.2.1 link299 (mkRat 299 10) (by decide) (by decide) (by decide) (by decide),
    h2.2.2.1 link40 40 (by decide) (by decide) (by decide) (by decide),
    h2.2.2.2 link50 50 (by decide) (by decide)⟩

/-- C10: a disavow-tagged link never passes the suspicious filter (whatever
its risk score), every domain in the suspicious export is contributed by a
link that passes the filter — hence not disavow-tagged — and a
disavow-tagged link's truthy domain does appear in the toxic export. -/
theorem suspicious_never_disavow (links : List LinkDetail) :
    (∀ l : LinkDetail, recLower l = "disavow" → suspiciousFilter l = false) ∧
    (∀ d, d ∈ downloadSuspiciousDomains links →
      ∃ l, l ∈ links ∧ l.domain = some d ∧ suspiciousFilter l = true ∧
        recLower l ≠ "disavow") ∧
    (∀ l d, l ∈ links → recLower l = "disavow" → l.domain = some d → d ≠ "" →
      d ∈ downloadToxicDomains links) := by
  refine ⟨fun l h => suspiciousFilter_disavow l h, fun d hd => ?_,
    fun l d hl h1 h2 h3 => disavow_mem_toxic links l d hl h1 h2 h3⟩
  obtain ⟨l, hl, hp, hdom, hne⟩ := mem_exportDomains_elim suspiciousFilter links d hd
  refine ⟨l, hl, hdom, hp, fun hc => ?_⟩
  rw [suspiciousFilter_disavow l hc] at hp
  exact Bool.noConfusion hp

/-- Witness for `suspicious_never_disavow`: a `Disavow` link (mixed case)
with risk score 40 fails the suspicious filter, and its domain is in the
toxic export. -/
theorem suspicious_never_disavow_witness :
    suspiciousFilter linkDis40 = false ∧
    "dd.example" ∈ downloadToxicDomains [linkDis40] := by
  have h := suspicious_never_disavow [linkDis40]
  exact ⟨h.1 linkDis40 (by decide),
    h.2.2 linkDis40 "dd.example" (by decide) (by decide) (by decide) (by decide)⟩
